import Mathlib

/-!
Verification of the subtitle pipeline of `ai-video-cut`
(`add_subtitles.py`, `generate_srt.py`) against its specification.

Times are modelled as exact rationals (`ℚ`); Python's `math.floor` is `Int.floor`,
`int()` on a float is truncation toward zero, `round()` is round-half-to-even,
and the float `%` operator (with a positive divisor) is `a - b * ⌊a / b⌋`.
Strings are modelled as `List Char`; file-system effects of the strategy chain
are modelled by a small record of booleans, one per file the pipeline touches.
-/

set_option maxRecDepth 16384

namespace AiVideoCut

/-! ## Python numeric primitives -/

/-- Python `math.floor` on an exact rational. -/
def pyFloor (q : ℚ) : ℤ := ⌊q⌋

/-- Python `int()` applied to a float: truncation toward zero. -/
def pyTrunc (q : ℚ) : ℤ := if q < 0 then -⌊-q⌋ else ⌊q⌋

/-- Python 3 `round()` to an integer: round half to even. -/
def pyRound (q : ℚ) : ℤ :=
  if q - ⌊q⌋ < 1/2 then ⌊q⌋
  else if (1:ℚ)/2 < q - ⌊q⌋ then ⌊q⌋ + 1
  else if ⌊q⌋ % 2 = 0 then ⌊q⌋ else ⌊q⌋ + 1

/-- Python float `%` (for the positive divisors used in this code base):
`a % b = a - b * floor(a / b)`. -/
def pyFloorMod (a b : ℚ) : ℚ := a - b * ⌊a / b⌋

/-! ## Timestamp formatters

`format_time` is `generate_srt.format_time` (src/generate_srt.py lines 32-47);
`format_ass_fields` / `format_ass_time` is `add_subtitles._format_ass_time`
(src/add_subtitles.py lines 113-127). -/

/-- The four numeric fields of a formatted timestamp. -/
structure TimeFields where
  h : ℤ
  m : ℤ
  s : ℤ
  ms : ℤ
  deriving DecidableEq

/-- Numeric fields of `generate_srt.format_time`:
`hours = math.floor(seconds / 3600)`, `minutes = math.floor((seconds % 3600) / 60)`,
`secs = math.floor(seconds % 60)`,
`milliseconds = math.floor((seconds - math.floor(seconds)) * 1000)`. -/
def format_time_fields (q : ℚ) : TimeFields :=
  { h := ⌊q / 3600⌋
  , m := ⌊pyFloorMod q 3600 / 60⌋
  , s := ⌊pyFloorMod q 60⌋
  , ms := ⌊(q - (⌊q⌋ : ℚ)) * 1000⌋ }

/-- Python's zero-padded decimal format `f"{n:0wd}"` for a natural number. -/
def padZeros (w n : ℕ) : List Char :=
  List.replicate (w - (Nat.toDigits 10 n).length) '0' ++ Nat.toDigits 10 n

/-- `generate_srt.format_time`: `f"{hours:02d}:{minutes:02d}:{secs:02d},{milliseconds:03d}"`
(faithful for the non-negative times this pipeline produces). -/
def format_time (q : ℚ) : String :=
  ⟨padZeros 2 (format_time_fields q).h.toNat ++
    ':' :: padZeros 2 (format_time_fields q).m.toNat ++
    ':' :: padZeros 2 (format_time_fields q).s.toNat ++
    ',' :: padZeros 3 (format_time_fields q).ms.toNat⟩

/-- Numeric fields of `add_subtitles._format_ass_time`:
`h = int(seconds // 3600)`, `m = int((seconds % 3600) // 60)`,
`s = int(seconds % 60)`, `centiseconds = int(round((seconds - int(seconds)) * 100))`.
The `ms` field holds the centiseconds before the `min(99, ...)` clamp applied
in the format string. -/
def format_ass_fields (q : ℚ) : TimeFields :=
  { h := ⌊q / 3600⌋
  , m := ⌊pyFloorMod q 3600 / 60⌋
  , s := pyTrunc (pyFloorMod q 60)
  , ms := pyRound ((q - (pyTrunc q : ℚ)) * 100) }

/-- `add_subtitles._format_ass_time`: `f"{h}:{m:02d}:{s:02d}.{min(99, centiseconds):02d}"`. -/
def format_ass_time (q : ℚ) : String :=
  ⟨Nat.toDigits 10 (format_ass_fields q).h.toNat ++
    ':' :: padZeros 2 (format_ass_fields q).m.toNat ++
    ':' :: padZeros 2 (format_ass_fields q).s.toNat ++
    '.' :: padZeros 2 (min 99 (format_ass_fields q).ms).toNat⟩

/-! ## Claims about the timestamp formatters -/

theorem pyFloorMod_nonneg (a b : ℚ) (hb : 0 < b) : 0 ≤ pyFloorMod a b := by
  have h1 : ((⌊a / b⌋ : ℤ) : ℚ) ≤ a / b := Int.floor_le (a / b)
  have h2 := mul_le_mul_of_nonneg_left h1 hb.le
  have h3 : b * (a / b) = a := mul_div_cancel₀ a (ne_of_gt hb)
  unfold pyFloorMod
  linarith

theorem pyFloorMod_lt (a b : ℚ) (hb : 0 < b) : pyFloorMod a b < b := by
  have h1 : a / b < (⌊a / b⌋ : ℚ) + 1 := Int.lt_floor_add_one (a / b)
  have h2 := mul_lt_mul_of_pos_left h1 hb
  have h3 : b * (a / b) = a := mul_div_cancel₀ a (ne_of_gt hb)
  unfold pyFloorMod
  nlinarith

/-- Claim C4: the markup-timestamp formatter computes centiseconds by
rounding the fractional part and then capping at 99, so the printed
centisecond field never exceeds 99; in particular `5.995` rounds up to a raw
centisecond value of 100, which the cap turns into `.99` with no carry into
the seconds field: the formatted string is `0:00:05.99`. -/
theorem ass_centiseconds_clamped :
    (∀ q : ℚ, min 99 (format_ass_fields q).ms ≤ 99) ∧
    (format_ass_fields ((5995 : ℚ) / 1000)).ms = 100 ∧
    format_ass_time ((5995 : ℚ) / 1000) = "0:00:05.99" := by
  have hfields : format_ass_fields ((5995 : ℚ) / 1000) = ⟨0, 0, 5, 100⟩ := by
    norm_num [format_ass_fields, pyFloorMod, pyTrunc, pyRound, TimeFields.mk.injEq]
  refine ⟨fun q => min_le_left _ _, by rw [hfields], ?_⟩
  unfold format_ass_time
  rw [hfields]
  decide

/-- Claim C5, counterexample: at `0.0006` seconds the exchange-timestamp
formatter produces a millisecond field of `0` although the exact millisecond
value is `0.6` — the field is more than `1/2` away from the produced integer,
so the formatter floors (truncates) milliseconds instead of rounding them to
the nearest integer. -/
theorem format_time_ms_not_rounded :
    (format_time_fields ((3 : ℚ) / 5000)).ms = 0 ∧
    ((3 : ℚ) / 5000 - (⌊(3 : ℚ) / 5000⌋ : ℚ)) * 1000 = 3 / 5 ∧
    ¬(|((format_time_fields ((3 : ℚ) / 5000)).ms : ℚ) -
        ((3 : ℚ) / 5000 - (⌊(3 : ℚ) / 5000⌋ : ℚ)) * 1000| ≤ 1 / 2) := by
  have hms : (format_time_fields ((3 : ℚ) / 5000)).ms = 0 := by
    simp only [format_time_fields]
    norm_num
  refine ⟨hms, by norm_num, ?_⟩
  rw [hms]
  rw [abs_of_nonpos (by norm_num)]
  norm_num

/-- Claim C5 (amended): the exchange-timestamp formatter truncates (floors)
all four fields, milliseconds included: for `q ≥ 0` the four produced fields
are in range (`0 ≤ m, s`, `m, s < 60`, `0 ≤ ms < 1000`) and the represented
value satisfies `value ≤ q < value + 1 ms` — the field vector is the
truncation of `q` to whole milliseconds, not a rounding. -/
theorem format_time_truncates (q : ℚ) (hq : 0 ≤ q) :
    0 ≤ (format_time_fields q).h ∧
    0 ≤ (format_time_fields q).m ∧ (format_time_fields q).m < 60 ∧
    0 ≤ (format_time_fields q).s ∧ (format_time_fields q).s < 60 ∧
    0 ≤ (format_time_fields q).ms ∧ (format_time_fields q).ms < 1000 ∧
    ((format_time_fields q).h : ℚ) * 3600 + ((format_time_fields q).m : ℚ) * 60 +
        ((format_time_fields q).s : ℚ) + ((format_time_fields q).ms : ℚ) / 1000 ≤ q ∧
    q < ((format_time_fields q).h : ℚ) * 3600 + ((format_time_fields q).m : ℚ) * 60 +
        ((format_time_fields q).s : ℚ) + (((format_time_fields q).ms : ℚ) + 1) / 1000 := by
  simp only [format_time_fields]
  have hr1a : 0 ≤ pyFloorMod q 3600 := pyFloorMod_nonneg q 3600 (by norm_num)
  have hr1b : pyFloorMod q 3600 < 3600 := pyFloorMod_lt q 3600 (by norm_num)
  have hr2a : 0 ≤ pyFloorMod q 60 := pyFloorMod_nonneg q 60 (by norm_num)
  have hr2b : pyFloorMod q 60 < 60 := pyFloorMod_lt q 60 (by norm_num)
  have hH0 : 0 ≤ ⌊q / 3600⌋ := Int.floor_nonneg.mpr (by positivity)
  have hM0 : 0 ≤ ⌊pyFloorMod q 3600 / 60⌋ := Int.floor_nonneg.mpr (by positivity)
  have hM1 : ⌊pyFloorMod q 3600 / 60⌋ < 60 := by
    apply Int.floor_lt.mpr
    rw [div_lt_iff (by norm_num : (0:ℚ) < 60)]
    push_cast
    linarith
  have hS0 : 0 ≤ ⌊pyFloorMod q 60⌋ := Int.floor_nonneg.mpr hr2a
  have hS1 : ⌊pyFloorMod q 60⌋ < 60 := Int.floor_lt.mpr (by push_cast; linarith)
  have hF0 : 0 ≤ q - (⌊q⌋ : ℚ) := sub_nonneg.mpr (Int.floor_le q)
  have hF1 : q - (⌊q⌋ : ℚ) < 1 := by
    have := Int.lt_floor_add_one q
    linarith
  have hMS0 : 0 ≤ ⌊(q - (⌊q⌋ : ℚ)) * 1000⌋ := Int.floor_nonneg.mpr (by positivity)
  have hMS1 : ⌊(q - (⌊q⌋ : ℚ)) * 1000⌋ < 1000 := Int.floor_lt.mpr (by push_cast; nlinarith)
  have hq60 : ⌊q / 60⌋ = 60 * ⌊q / 3600⌋ + ⌊pyFloorMod q 3600 / 60⌋ := by
    have hsplit : q / 60 = ((60 * ⌊q / 3600⌋ : ℤ) : ℚ) + pyFloorMod q 3600 / 60 := by
      unfold pyFloorMod
      push_cast
      ring
    rw [hsplit, Int.floor_int_add]
  have hr2eq : pyFloorMod q 60
      = pyFloorMod q 3600 - 60 * ((⌊pyFloorMod q 3600 / 60⌋ : ℤ) : ℚ) := by
    have h1 : pyFloorMod q 60 = q - 60 * ((⌊q / 60⌋ : ℤ) : ℚ) := rfl
    rw [h1, hq60]
    unfold pyFloorMod
    push_cast
    ring
  have hfq : ⌊q⌋ = 3600 * ⌊q / 3600⌋ + 60 * ⌊pyFloorMod q 3600 / 60⌋ + ⌊pyFloorMod q 60⌋ := by
    have hqdecomp : q =
        ((3600 * ⌊q / 3600⌋ + 60 * ⌊pyFloorMod q 3600 / 60⌋ : ℤ) : ℚ) + pyFloorMod q 60 := by
      rw [hr2eq]
      unfold pyFloorMod
      push_cast
      ring
    have hstep : ⌊((3600 * ⌊q / 3600⌋ + 60 * ⌊pyFloorMod q 3600 / 60⌋ : ℤ) : ℚ)
        + pyFloorMod q 60⌋
        = 3600 * ⌊q / 3600⌋ + 60 * ⌊pyFloorMod q 3600 / 60⌋ + ⌊pyFloorMod q 60⌋ :=
      Int.floor_int_add _ _
    rw [← hstep, ← hqdecomp]
  have hfqQ : ((⌊q⌋ : ℤ) : ℚ) = 3600 * ((⌊q / 3600⌋ : ℤ) : ℚ)
      + 60 * ((⌊pyFloorMod q 3600 / 60⌋ : ℤ) : ℚ) + ((⌊pyFloorMod q 60⌋ : ℤ) : ℚ) := by
    exact_mod_cast congrArg (fun z : ℤ => (z : ℚ)) hfq
  have hMSle : ((⌊(q - (⌊q⌋ : ℚ)) * 1000⌋ : ℤ) : ℚ) ≤ (q - (⌊q⌋ : ℚ)) * 1000 :=
    Int.floor_le _
  have hMSlt : (q - (⌊q⌋ : ℚ)) * 1000 < ((⌊(q - (⌊q⌋ : ℚ)) * 1000⌋ : ℤ) : ℚ) + 1 :=
    Int.lt_floor_add_one _
  refine ⟨hH0, hM0, hM1, hS0, hS1, hMS0, hMS1, ?_, ?_⟩
  · linarith
  · linarith

/-- Claim C5 witness instance: the truncation guarantee of
`format_time_truncates` at `q = 3661.5005` seconds (fields 1 h, 1 min, 1 s,
500 ms, value within one millisecond below `q`). -/
theorem format_time_truncates_witness :
    0 ≤ (format_time_fields ((73230010 : ℚ) / 20000)).h ∧
    0 ≤ (format_time_fields ((73230010 : ℚ) / 20000)).m ∧
    (format_time_fields ((73230010 : ℚ) / 20000)).m < 60 ∧
    0 ≤ (format_time_fields ((73230010 : ℚ) / 20000)).s ∧
    (format_time_fields ((73230010 : ℚ) / 20000)).s < 60 ∧
    0 ≤ (format_time_fields ((73230010 : ℚ) / 20000)).ms ∧
    (format_time_fields ((73230010 : ℚ) / 20000)).ms < 1000 ∧
    ((format_time_fields ((73230010 : ℚ) / 20000)).h : ℚ) * 3600 +
        ((format_time_fields ((73230010 : ℚ) / 20000)).m : ℚ) * 60 +
        ((format_time_fields ((73230010 : ℚ) / 20000)).s : ℚ) +
        ((format_time_fields ((73230010 : ℚ) / 20000)).ms : ℚ) / 1000 ≤
      (73230010 : ℚ) / 20000 ∧
    (73230010 : ℚ) / 20000 <
      ((format_time_fields ((73230010 : ℚ) / 20000)).h : ℚ) * 3600 +
        ((format_time_fields ((73230010 : ℚ) / 20000)).m : ℚ) * 60 +
        ((format_time_fields ((73230010 : ℚ) / 20000)).s : ℚ) +
        (((format_time_fields ((73230010 : ℚ) / 20000)).ms : ℚ) + 1) / 1000 :=
  format_time_truncates ((73230010 : ℚ) / 20000) (by norm_num)

/-! ## Render-strategy chain (src/add_subtitles.py lines 177-472)

The external engine (`subprocess.run` of ffmpeg) is abstracted by an
environment that fixes, for each of the four invocations the pipeline can
make, whether the invocation succeeds, fails, or hits the 20-minute timeout,
and whether a file is present at its target path afterwards.  The file system
is abstracted by one boolean per path the pipeline touches: the final output
path, the `output + '.with_subs.mp4'` intermediate, the temporary `.ass`
document, and the `output + '.vertical.mp4'` intermediate. -/

/-- Outcome of one external engine invocation.  `wrote` records whether a
(partial) file is present at the invocation's target path afterwards. -/
inductive EngRes where
  | ok : EngRes
  | fail (wrote : Bool) : EngRes
  | timeout (wrote : Bool) : EngRes
  deriving DecidableEq, Fintype

/-- Whether the invocation hit the 20-minute timeout
(`subprocess.TimeoutExpired`). -/
def EngRes.isTimeout : EngRes → Bool
  | .timeout _ => true
  | _ => false

/-- Whether a file is present at the invocation's target path afterwards.
On success the check `result.returncode == 0 and os.path.exists(...)` passed,
so the file is there. -/
def EngRes.leavesFile : EngRes → Bool
  | .ok => true
  | .fail w => w
  | .timeout w => w

/-- What a strategy call does with an engine outcome: return `True`, return
`False`, or let an exception escape.  `catchTimeout` is whether the strategy
wraps the invocation in `except subprocess.TimeoutExpired`. -/
inductive StepResult where
  | retTrue : StepResult
  | retFalse : StepResult
  | raised : StepResult
  deriving DecidableEq, Fintype

/-- Classify an engine outcome as the strategy's python-level result.
A zero exit code with the output present returns `True`; any other completed
run returns `False` (including the capability-missing branches); a timeout
returns `False` only when the strategy catches `TimeoutExpired`, otherwise
the exception escapes. -/
def stepOf (r : EngRes) (catchTimeout : Bool) : StepResult :=
  match r with
  | .ok => .retTrue
  | .fail _ => .retFalse
  | .timeout _ => if catchTimeout then .retFalse else .raised

/-- Which files exist: the final output path, the `.with_subs.mp4`
intermediate, the temporary `.ass` document, the `.vertical.mp4` intermediate. -/
structure FS where
  output : Bool
  withSubs : Bool
  assTemp : Bool
  vertTemp : Bool
  deriving DecidableEq, Fintype

/-- Fixed behaviour of the environment for one pipeline run. -/
structure Env where
  videoExists : Bool
  srtExists : Bool
  /-- whether `parse_srt` returns a non-empty segment list -/
  srtHasSegments : Bool
  ass : EngRes
  draw : EngRes
  mux : EngRes
  vert : EngRes
  deriving DecidableEq

instance : Fintype Env :=
  Fintype.ofEquiv (Bool × Bool × Bool × EngRes × EngRes × EngRes × EngRes)
    { toFun := fun x => ⟨x.1, x.2.1, x.2.2.1, x.2.2.2.1, x.2.2.2.2.1, x.2.2.2.2.2.1, x.2.2.2.2.2.2⟩
      invFun := fun e => (e.videoExists, e.srtExists, e.srtHasSegments, e.ass, e.draw, e.mux, e.vert)
      left_inv := fun _ => rfl
      right_inv := fun _ => rfl }

/-- `try_ass_style` (lines 177-246): parse the SRT (missing file or empty
segment list returns `False` early), write the temporary `.ass` document, run
the engine against the target path, and in `finally` delete the `.ass`
document.  There is no `except subprocess.TimeoutExpired`, so a timeout
escapes (after the `finally` cleanup). -/
def try_ass_style (e : Env) (s : FS) : StepResult × FS :=
  if e.srtExists = false then (.retFalse, s)
  else if e.srtHasSegments = false then (.retFalse, s)
  else
    (stepOf e.ass false,
      { s with assTemp := false, withSubs := e.ass.leavesFile })

/-- `try_tiktok_drawtext` (lines 248-316): parse the SRT (early `False` on
missing file or no segments), run the engine, catching `TimeoutExpired`. -/
def try_tiktok_drawtext (e : Env) (s : FS) : StepResult × FS :=
  if e.srtExists = false then (.retFalse, s)
  else if e.srtHasSegments = false then (.retFalse, s)
  else (stepOf e.draw true, { s with withSubs := e.draw.leavesFile })

/-- `mux_soft_subtitles` (lines 318-361): run the engine unconditionally,
catching `TimeoutExpired`. -/
def mux_soft_subtitles (e : Env) (s : FS) : StepResult × FS :=
  (stepOf e.mux true, { s with withSubs := e.mux.leavesFile })

/-- `convert_to_vertical` (lines 363-417): run the engine into the
`.vertical.mp4` temp; on success delete the output path if present and rename
the temp onto it; on failure or timeout delete the temp and return `False`. -/
def convert_to_vertical (e : Env) (s : FS) : StepResult × FS :=
  match e.vert with
  | .ok => (.retTrue, { s with vertTemp := false, output := true })
  | .fail _ => (.retFalse, { s with vertTemp := false })
  | .timeout _ => (.retFalse, { s with vertTemp := false })

/-- How one run of `add_subtitles` ends: normal return, `sys.exit(1)`, or an
uncaught exception. -/
inductive PipeResult where
  | finished : PipeResult
  | exit1 : PipeResult
  | raisedEx : PipeResult
  deriving DecidableEq, Fintype

/-- Observable outcome of one `add_subtitles` run: which fallback strategies
were attempted, how the run ended, and the final file system. -/
structure Run where
  triedDraw : Bool
  triedMux : Bool
  result : PipeResult
  fs : FS
  deriving DecidableEq, Fintype

/-- Lines 444-447: `if os.path.exists(output_path): os.unlink(output_path)`. -/
def afterOutputRemoval (s : FS) : FS := { s with output := false }

/-- Lines 463-472: vertical conversion of the `.with_subs.mp4` intermediate;
on success the intermediate is deleted and the run finishes, on failure the
run exits with code 1 (leaving the intermediate in place). -/
def finishRun (e : Env) (tD tM : Bool) (s : FS) : Run :=
  let v := convert_to_vertical e s
  if v.1 = .retTrue then ⟨tD, tM, .finished, { v.2 with withSubs := false }⟩
  else ⟨tD, tM, .exit1, v.2⟩

/-- `add_subtitles` (lines 419-472): validate inputs, remove a pre-existing
output file, try the three strategies in order, exit 1 if all fail, then
convert to vertical and clean up the intermediate. -/
def add_subtitles (e : Env) (s0 : FS) : Run :=
  if e.videoExists = false then ⟨false, false, .exit1, s0⟩
  else if e.srtExists = false then ⟨false, false, .exit1, s0⟩
  else
    let s1 := afterOutputRemoval s0
    let p1 := try_ass_style e s1
    if p1.1 = .raised then ⟨false, false, .raisedEx, p1.2⟩
    else if p1.1 = .retTrue then finishRun e false false p1.2
    else
      let p2 := try_tiktok_drawtext e p1.2
      if p2.1 = .retTrue then finishRun e true false p2.2
      else
        let p3 := mux_soft_subtitles e p2.2
        if p3.1 = .retTrue then finishRun e true true p3.2
        else ⟨true, true, .exit1, p3.2⟩

/-! ## Claims about the strategy chain -/

/-- Claim C1, counterexample: with both inputs present, the ASS strategy
succeeding and the vertical conversion failing, the pipeline terminates
fatally (exit code 1) although not all three strategies failed — the claimed
equivalence "exit 1 iff all three strategies fail" is false. -/
theorem chain_exit_not_iff_all_fail :
    (add_subtitles ⟨true, true, true, .ok, .ok, .ok, .fail false⟩
      ⟨false, false, false, false⟩).result = .exit1 ∧
    (try_ass_style ⟨true, true, true, .ok, .ok, .ok, .fail false⟩
      (afterOutputRemoval ⟨false, false, false, false⟩)).1 = .retTrue := by
  decide

/-- Claim C1 (amended): when both input files exist and the ASS strategy's
engine invocation does not time out (a timeout there escapes as an exception,
see C2), the drawtext strategy is attempted iff the ASS strategy did not
return success, the soft-subtitle mux is attempted iff both earlier
strategies did not return success, and the chain's fatal subtitle-failure
exit happens iff all three strategies fail; the pipeline additionally exits
fatally when a strategy succeeded but the vertical conversion failed. -/
theorem chain_fallback_order (e : Env) (s0 : FS)
    (hv : e.videoExists = true) (hs : e.srtExists = true)
    (ht : e.ass.isTimeout = false) :
    ((add_subtitles e s0).triedDraw = true ↔
      (try_ass_style e (afterOutputRemoval s0)).1 ≠ .retTrue) ∧
    ((add_subtitles e s0).triedMux = true ↔
      ((try_ass_style e (afterOutputRemoval s0)).1 ≠ .retTrue ∧
        (try_tiktok_drawtext e (try_ass_style e (afterOutputRemoval s0)).2).1 ≠ .retTrue)) ∧
    ((add_subtitles e s0).result = .exit1 ↔
      (((try_ass_style e (afterOutputRemoval s0)).1 ≠ .retTrue ∧
        (try_tiktok_drawtext e (try_ass_style e (afterOutputRemoval s0)).2).1 ≠ .retTrue ∧
        (mux_soft_subtitles e
          (try_tiktok_drawtext e (try_ass_style e (afterOutputRemoval s0)).2).2).1 ≠ .retTrue) ∨
       (¬((try_ass_style e (afterOutputRemoval s0)).1 ≠ .retTrue ∧
          (try_tiktok_drawtext e (try_ass_style e (afterOutputRemoval s0)).2).1 ≠ .retTrue ∧
          (mux_soft_subtitles e
            (try_tiktok_drawtext e (try_ass_style e (afterOutputRemoval s0)).2).2).1 ≠ .retTrue) ∧
        e.vert ≠ .ok))) := by
  obtain ⟨v, sr, seg, a, d, m, vt⟩ := e
  obtain ⟨o, ws, at0, vp⟩ := s0
  replace hv : v = true := hv
  replace hs : sr = true := hs
  subst hv; subst hs
  cases seg <;> cases a <;> cases d <;> cases m <;> cases vt <;>
    simp_all [add_subtitles, try_ass_style, try_tiktok_drawtext, mux_soft_subtitles,
      convert_to_vertical, finishRun, afterOutputRemoval, stepOf,
      EngRes.isTimeout, EngRes.leavesFile]

/-- Claim C1/C2 witness instance: a concrete run (ASS strategy lacks the
filter, drawtext succeeds, vertical conversion succeeds) exercising the
fallback equivalences of `chain_fallback_order`. -/
theorem chain_fallback_order_witness :
    ((add_subtitles ⟨true, true, true, .fail false, .ok, .ok, .ok⟩
        ⟨false, false, false, false⟩).triedDraw = true ↔
      (try_ass_style ⟨true, true, true, .fail false, .ok, .ok, .ok⟩
        (afterOutputRemoval ⟨false, false, false, false⟩)).1 ≠ .retTrue) ∧
    ((add_subtitles ⟨true, true, true, .fail false, .ok, .ok, .ok⟩
        ⟨false, false, false, false⟩).triedMux = true ↔
      ((try_ass_style ⟨true, true, true, .fail false, .ok, .ok, .ok⟩
          (afterOutputRemoval ⟨false, false, false, false⟩)).1 ≠ .retTrue ∧
        (try_tiktok_drawtext ⟨true, true, true, .fail false, .ok, .ok, .ok⟩
          (try_ass_style ⟨true, true, true, .fail false, .ok, .ok, .ok⟩
            (afterOutputRemoval ⟨false, false, false, false⟩)).2).1 ≠ .retTrue)) ∧
    ((add_subtitles ⟨true, true, true, .fail false, .ok, .ok, .ok⟩
        ⟨false, false, false, false⟩).result = .exit1 ↔
      (((try_ass_style ⟨true, true, true, .fail false, .ok, .ok, .ok⟩
          (afterOutputRemoval ⟨false, false, false, false⟩)).1 ≠ .retTrue ∧
        (try_tiktok_drawtext ⟨true, true, true, .fail false, .ok, .ok, .ok⟩
          (try_ass_style ⟨true, true, true, .fail false, .ok, .ok, .ok⟩
            (afterOutputRemoval ⟨false, false, false, false⟩)).2).1 ≠ .retTrue ∧
        (mux_soft_subtitles ⟨true, true, true, .fail false, .ok, .ok, .ok⟩
          (try_tiktok_drawtext ⟨true, true, true, .fail false, .ok, .ok, .ok⟩
            (try_ass_style ⟨true, true, true, .fail false, .ok, .ok, .ok⟩
              (afterOutputRemoval ⟨false, false, false, false⟩)).2).2).1 ≠ .retTrue) ∨
       (¬((try_ass_style ⟨true, true, true, .fail false, .ok, .ok, .ok⟩
            (afterOutputRemoval ⟨false, false, false, false⟩)).1 ≠ .retTrue ∧
          (try_tiktok_drawtext ⟨true, true, true, .fail false, .ok, .ok, .ok⟩
            (try_ass_style ⟨true, true, true, .fail false, .ok, .ok, .ok⟩
              (afterOutputRemoval ⟨false, false, false, false⟩)).2).1 ≠ .retTrue ∧
          (mux_soft_subtitles ⟨true, true, true, .fail false, .ok, .ok, .ok⟩
            (try_tiktok_drawtext ⟨true, true, true, .fail false, .ok, .ok, .ok⟩
              (try_ass_style ⟨true, true, true, .fail false, .ok, .ok, .ok⟩
                (afterOutputRemoval ⟨false, false, false, false⟩)).2).2).1 ≠ .retTrue) ∧
        (⟨true, true, true, .fail false, .ok, .ok, .ok⟩ : Env).vert ≠ .ok))) :=
  chain_fallback_order ⟨true, true, true, .fail false, .ok, .ok, .ok⟩
    ⟨false, false, false, false⟩ rfl rfl rfl

/-- Claim C2: a timeout of the engine invocation inside the ASS strategy is
not handled — it escapes as an uncaught exception, the drawtext fallback is
never attempted and the run ends in an uncaught-exception state instead of a
strategy returning non-success.  The drawtext and mux strategies do treat a
timeout as a plain failure. -/
theorem ass_timeout_escapes :
    (add_subtitles ⟨true, true, true, .timeout false, .ok, .ok, .ok⟩
      ⟨false, false, false, false⟩).result = .raisedEx ∧
    (add_subtitles ⟨true, true, true, .timeout false, .ok, .ok, .ok⟩
      ⟨false, false, false, false⟩).triedDraw = false ∧
    (try_ass_style ⟨true, true, true, .timeout false, .ok, .ok, .ok⟩
      ⟨false, false, false, false⟩).1 = .raised ∧
    (try_tiktok_drawtext ⟨true, true, true, .ok, .timeout false, .ok, .ok⟩
      ⟨false, false, false, false⟩).1 = .retFalse ∧
    (mux_soft_subtitles ⟨true, true, true, .ok, .ok, .timeout false, .ok⟩
      ⟨false, false, false, false⟩).1 = .retFalse := by
  decide

/-- Claim C9, counterexample: all three strategies fail and each leaves a
partial file at the strategy target path.  The partial file is still present
when the ASS strategy hands over to the drawtext fallback, and the
intermediate `.with_subs.mp4` file still exists when the pipeline exits
fatally — neither the partial-output removal nor the delete-on-every-exit-path
clean-up claimed by the spec happens. -/
theorem partial_output_not_removed :
    (try_ass_style ⟨true, true, true, .fail true, .fail true, .fail true, .ok⟩
      (afterOutputRemoval ⟨false, false, false, false⟩)).1 = .retFalse ∧
    (try_ass_style ⟨true, true, true, .fail true, .fail true, .fail true, .ok⟩
      (afterOutputRemoval ⟨false, false, false, false⟩)).2.withSubs = true ∧
    (add_subtitles ⟨true, true, true, .fail true, .fail true, .fail true, .ok⟩
      ⟨false, false, false, false⟩).result = .exit1 ∧
    (add_subtitles ⟨true, true, true, .fail true, .fail true, .fail true, .ok⟩
      ⟨false, false, false, false⟩).fs.withSubs = true := by
  decide

/-- Claim C9 (amended): the temporary `.ass` document is deleted on every
exit path of the ASS strategy (its `finally` block runs even when the engine
times out), and the `.vertical.mp4` intermediate is deleted on every exit
path of the whole pipeline; but failed strategies do not remove partial
output at their target path before the next fallback, and the
`.with_subs.mp4` intermediate survives the fatal exit paths. -/
theorem ass_temp_always_deleted (e : Env) (s0 : FS)
    (ha : s0.assTemp = false) (hv : s0.vertTemp = false) :
    (try_ass_style e s0).2.assTemp = false ∧
    (add_subtitles e s0).fs.assTemp = false ∧
    (add_subtitles e s0).fs.vertTemp = false := by
  obtain ⟨v, sr, seg, a, d, m, vt⟩ := e
  obtain ⟨o, ws, at0, vp⟩ := s0
  replace ha : at0 = false := ha
  replace hv : vp = false := hv
  subst ha; subst hv
  cases v <;> cases sr <;> cases seg <;> cases a <;> cases d <;> cases m <;> cases vt <;>
    simp_all [add_subtitles, try_ass_style, try_tiktok_drawtext, mux_soft_subtitles,
      convert_to_vertical, finishRun, afterOutputRemoval, stepOf,
      EngRes.isTimeout, EngRes.leavesFile]

/-- Claim C9 witness instance: the clean-up guarantee of
`ass_temp_always_deleted` at a concrete all-fail run. -/
theorem ass_temp_always_deleted_witness :
    (try_ass_style ⟨true, true, true, .timeout true, .fail true, .fail true, .ok⟩
      ⟨true, false, false, false⟩).2.assTemp = false ∧
    (add_subtitles ⟨true, true, true, .timeout true, .fail true, .fail true, .ok⟩
      ⟨true, false, false, false⟩).fs.assTemp = false ∧
    (add_subtitles ⟨true, true, true, .timeout true, .fail true, .fail true, .ok⟩
      ⟨true, false, false, false⟩).fs.vertTemp = false :=
  ass_temp_always_deleted ⟨true, true, true, .timeout true, .fail true, .fail true, .ok⟩
    ⟨true, false, false, false⟩ rfl rfl

/-- Claim C10: when both input files exist, a pre-existing file at the final
output path is deleted before any strategy is attempted
(`afterOutputRemoval`), and in every run that does not finish normally —
all strategies failed, the vertical conversion failed, or the ASS timeout
exception escaped — the previously existing output file no longer exists. -/
theorem preexisting_output_removed (e : Env) (s0 : FS)
    (hv : e.videoExists = true) (hs : e.srtExists = true) :
    (afterOutputRemoval s0).output = false ∧
    ((add_subtitles e s0).result ≠ .finished →
      (add_subtitles e s0).fs.output = false) := by
  obtain ⟨v, sr, seg, a, d, m, vt⟩ := e
  obtain ⟨o, ws, at0, vp⟩ := s0
  replace hv : v = true := hv
  replace hs : sr = true := hs
  subst hv; subst hs
  cases seg <;> cases a <;> cases d <;> cases m <;> cases vt <;>
    simp_all [add_subtitles, try_ass_style, try_tiktok_drawtext, mux_soft_subtitles,
      convert_to_vertical, finishRun, afterOutputRemoval, stepOf,
      EngRes.isTimeout, EngRes.leavesFile]

/-- Claim C10 witness instance: a run with a pre-existing output file in
which all strategies fail; afterwards the old output file is gone. -/
theorem preexisting_output_removed_witness :
    (afterOutputRemoval ⟨true, false, false, false⟩).output = false ∧
    ((add_subtitles ⟨true, true, true, .fail false, .fail false, .fail false, .ok⟩
        ⟨true, false, false, false⟩).result ≠ .finished →
      (add_subtitles ⟨true, true, true, .fail false, .fail false, .fail false, .ok⟩
        ⟨true, false, false, false⟩).fs.output = false) :=
  preexisting_output_removed ⟨true, true, true, .fail false, .fail false, .fail false, .ok⟩
    ⟨true, false, false, false⟩ rfl rfl

/-! ## Word-timing allocator (src/add_subtitles.py lines 155-173)

Inside `build_ass_content`, each segment's text is split on whitespace runs
into `num_words` words; when `num_words > 0 and duration > 0` the i-th word
gets the interval `[start + i * duration / num_words,
start + (i + 1) * duration / num_words)`, otherwise no cues are produced. -/

/-- The word-cue intervals generated for one segment with `n` words:
`word_duration = duration / num_words`,
`word_start = start + i * word_duration`,
`word_end = start + (i + 1) * word_duration`. -/
def wordCues (start stop : ℚ) (n : ℕ) : List (ℚ × ℚ) :=
  if 0 < n ∧ 0 < stop - start then
    (List.range n).map fun (i : ℕ) =>
      (start + (i : ℚ) * ((stop - start) / (n : ℚ)),
       start + ((i : ℚ) + 1) * ((stop - start) / (n : ℚ)))
  else []

/-- Claim C3: for a segment with `n > 0` words and positive duration
`d = stop - start`, the allocator produces exactly `n` cues, the i-th cue is
`[start + i*(d/n), start + (i+1)*(d/n))` of length exactly `d/n`, consecutive
cues are contiguous, distinct cues are disjoint, and the cues cover exactly
`[start, stop)`; with `n = 0` or `d ≤ 0` no cues are produced and no division
happens. -/
theorem wordCues_partition (start stop : ℚ) (n : ℕ) :
    (0 < n → 0 < stop - start →
      (wordCues start stop n).length = n ∧
      (∀ i : ℕ, i < n →
        (wordCues start stop n)[i]? =
          some (start + (i : ℚ) * ((stop - start) / (n : ℚ)),
                start + ((i : ℚ) + 1) * ((stop - start) / (n : ℚ)))) ∧
      (∀ i : ℕ, i < n →
        (start + ((i : ℚ) + 1) * ((stop - start) / (n : ℚ))) -
          (start + (i : ℚ) * ((stop - start) / (n : ℚ))) = (stop - start) / (n : ℚ)) ∧
      (∀ i j : ℕ, i < j → j < n → ∀ t : ℚ,
        ¬((start + (i : ℚ) * ((stop - start) / (n : ℚ)) ≤ t ∧
            t < start + ((i : ℚ) + 1) * ((stop - start) / (n : ℚ))) ∧
          (start + (j : ℚ) * ((stop - start) / (n : ℚ)) ≤ t ∧
            t < start + ((j : ℚ) + 1) * ((stop - start) / (n : ℚ))))) ∧
      (∀ t : ℚ, (start ≤ t ∧ t < stop) ↔
        ∃ i : ℕ, i < n ∧
          start + (i : ℚ) * ((stop - start) / (n : ℚ)) ≤ t ∧
          t < start + ((i : ℚ) + 1) * ((stop - start) / (n : ℚ)))) ∧
    ((n = 0 ∨ stop - start ≤ 0) → wordCues start stop n = []) := by
  constructor
  · intro hn hd
    have hnq : (0 : ℚ) < (n : ℚ) := by exact_mod_cast hn
    have hdn : (0 : ℚ) < (stop - start) / (n : ℚ) := div_pos hd hnq
    refine ⟨?_, ?_, ?_, ?_, ?_⟩
    · unfold wordCues
      rw [if_pos ⟨hn, hd⟩, List.length_map, List.length_range]
    · intro i hi
      unfold wordCues
      rw [if_pos ⟨hn, hd⟩]
      simp only [List.getElem?_map, List.getElem?_range, hi, if_true, Option.map_some']
    · intro i hi
      ring
    · intro i j hij hj t hmem
      obtain ⟨⟨_, hi2⟩, ⟨hj1, _⟩⟩ := hmem
      have hle : ((i : ℚ) + 1) ≤ (j : ℚ) := by exact_mod_cast hij
      have := mul_le_mul_of_nonneg_right hle hdn.le
      linarith
    · intro t
      constructor
      · rintro ⟨h1, h2⟩
        have hu0 : (0 : ℚ) ≤ (t - start) / ((stop - start) / (n : ℚ)) :=
          div_nonneg (by linarith) hdn.le
        have hun : (t - start) / ((stop - start) / (n : ℚ)) < (n : ℚ) := by
          rw [div_lt_iff hdn]
          have hnd : (n : ℚ) * ((stop - start) / (n : ℚ)) = stop - start := by
            field_simp
          rw [hnd]
          linarith
        have hfl0 : 0 ≤ ⌊(t - start) / ((stop - start) / (n : ℚ))⌋ :=
          Int.floor_nonneg.mpr hu0
        have hcast : ((⌊(t - start) / ((stop - start) / (n : ℚ))⌋.toNat : ℕ) : ℚ)
            = ((⌊(t - start) / ((stop - start) / (n : ℚ))⌋ : ℤ) : ℚ) := by
          exact_mod_cast Int.toNat_of_nonneg hfl0
        have hmul : (t - start) / ((stop - start) / (n : ℚ)) * ((stop - start) / (n : ℚ))
            = t - start := div_mul_cancel₀ _ (ne_of_gt hdn)
        refine ⟨⌊(t - start) / ((stop - start) / (n : ℚ))⌋.toNat, ?_, ?_, ?_⟩
        · have hflt : ⌊(t - start) / ((stop - start) / (n : ℚ))⌋ < (n : ℤ) :=
            Int.floor_lt.mpr (by exact_mod_cast hun)
          omega
        · have h3 : ((⌊(t - start) / ((stop - start) / (n : ℚ))⌋.toNat : ℕ) : ℚ)
              ≤ (t - start) / ((stop - start) / (n : ℚ)) := by
            rw [hcast]
            exact Int.floor_le _
          have key := mul_le_mul_of_nonneg_right h3 hdn.le
          rw [hmul] at key
          linarith
        · have h4 : (t - start) / ((stop - start) / (n : ℚ))
              < ((⌊(t - start) / ((stop - start) / (n : ℚ))⌋.toNat : ℕ) : ℚ) + 1 := by
            rw [hcast]
            exact Int.lt_floor_add_one _
          have key := mul_lt_mul_of_pos_right h4 hdn
          rw [hmul] at key
          linarith
      · rintro ⟨i, hi, hlo, hhi⟩
        constructor
        · have : (0 : ℚ) ≤ (i : ℚ) * ((stop - start) / (n : ℚ)) := by positivity
          linarith
        · have hle : ((i : ℚ) + 1) ≤ (n : ℚ) := by exact_mod_cast hi
          have hmul := mul_le_mul_of_nonneg_right hle hdn.le
          have hnd : (n : ℚ) * ((stop - start) / (n : ℚ)) = stop - start := by
            field_simp
          rw [hnd] at hmul
          linarith
  · intro h
    have hcond : ¬(0 < n ∧ 0 < stop - start) := by
      rintro ⟨h1, h2⟩
      rcases h with h | h
      · omega
      · linarith
    unfold wordCues
    rw [if_neg hcond]

/-- Claim C3 witness instance: the two-word segment `[0, 1)` gets the cues
`[0, 1/2)` and `[1/2, 1)`, and a zero-duration segment gets none. -/
theorem wordCues_partition_witness :
    (wordCues 0 1 2).length = 2 ∧
    (wordCues 0 1 2)[0]? = some (0 + ((0 : ℕ) : ℚ) * ((1 - 0) / ((2 : ℕ) : ℚ)),
      0 + (((0 : ℕ) : ℚ) + 1) * ((1 - 0) / ((2 : ℕ) : ℚ))) ∧
    wordCues 3 3 5 = [] :=
  ⟨((wordCues_partition 0 1 2).1 (by norm_num) (by norm_num)).1,
   ((wordCues_partition 0 1 2).1 (by norm_num) (by norm_num)).2.1 0 (by norm_num),
   (wordCues_partition 3 3 5).2 (Or.inr (by norm_num))⟩

/-! ## SRT transcript parser (src/add_subtitles.py lines 44-111)

A block of the SRT file is modelled as its list of lines (the code first
splits the document on blank lines and each block on newlines); characters
are ASCII, `\d` is `0-9` and `\s` is the ASCII whitespace set. -/

/-- Python regex `\d` on ASCII text. -/
def isPyDigit (c : Char) : Bool := '0' ≤ c && c ≤ '9'

/-- Numeric value of an ASCII digit. -/
def digitVal (c : Char) : ℕ := c.toNat - 48

/-- Python regex `\s` on ASCII text: space, tab, newline, carriage return,
vertical tab, form feed. -/
def isPySpace (c : Char) : Bool :=
  c = ' ' || c = '\t' || c = '\n' || c = '\r' || c = Char.ofNat 11 || c = Char.ofNat 12

/-- Read exactly `k` digits (regex `\d{k}`), accumulating their value. -/
def readFixedDigits : ℕ → ℕ → List Char → Option (ℕ × List Char)
  | 0, acc, cs => some (acc, cs)
  | _ + 1, _, [] => none
  | k + 1, acc, c :: cs =>
    if isPyDigit c then readFixedDigits k (acc * 10 + digitVal c) cs else none

/-- Match one literal character. -/
def expectChar (c : Char) : List Char → Option (List Char)
  | [] => none
  | c2 :: cs => if c2 = c then some cs else none

/-- Match one SRT timestamp `(\d{2}):(\d{2}):(\d{2}),(\d{3})`, returning the
four captured numbers and the remaining input. -/
def matchSrtTimestamp (cs : List Char) : Option ((ℕ × ℕ × ℕ × ℕ) × List Char) :=
  match readFixedDigits 2 0 cs with
  | none => none
  | some (h, r1) =>
    match expectChar ':' r1 with
    | none => none
    | some r2 =>
      match readFixedDigits 2 0 r2 with
      | none => none
      | some (m, r3) =>
        match expectChar ':' r3 with
        | none => none
        | some r4 =>
          match readFixedDigits 2 0 r4 with
          | none => none
          | some (s, r5) =>
            match expectChar ',' r5 with
            | none => none
            | some r6 =>
              match readFixedDigits 3 0 r6 with
              | none => none
              | some (ms, r7) => some ((h, m, s, ms), r7)

/-- `SRT_TIME_PATTERN.match(time_line)`: the anchored regex
`(\d{2}):(\d{2}):(\d{2}),(\d{3})\s*-->\s*(\d{2}):(\d{2}):(\d{2}),(\d{3})`
(trailing input is allowed, as with `re.match`).  The `\s*` parts never need
backtracking because `-` and digits are not whitespace. -/
def matchSrtTimeLine (cs : List Char) :
    Option ((ℕ × ℕ × ℕ × ℕ) × (ℕ × ℕ × ℕ × ℕ)) :=
  match matchSrtTimestamp cs with
  | none => none
  | some (t1, r1) =>
    match expectChar '-' (r1.dropWhile isPySpace) with
    | none => none
    | some r3 =>
      match expectChar '-' r3 with
      | none => none
      | some r4 =>
        match expectChar '>' r4 with
        | none => none
        | some r5 =>
          match matchSrtTimestamp (r5.dropWhile isPySpace) with
          | none => none
          | some (t2, _) => some (t1, t2)

/-- Group-to-seconds conversion of `parse_srt` (lines 92-103):
`h * 3600 + m * 60 + s + ms / 1000`, exact over `ℚ`. -/
def srtGroupsToSeconds (h m s ms : ℕ) : ℚ :=
  (h : ℚ) * 3600 + (m : ℚ) * 60 + (s : ℚ) + (ms : ℚ) / 1000

/-- Python `str.strip()` on ASCII text. -/
def pyStrip (cs : List Char) : List Char :=
  ((cs.dropWhile isPySpace).reverse.dropWhile isPySpace).reverse

/-- Helper for `collapseWs`: the flag records whether the previous character
was part of a whitespace run (whose single replacement space has already been
emitted). -/
def collapseWsAux : Bool → List Char → List Char
  | _, [] => []
  | prevSpace, c :: cs =>
    if isPySpace c then
      if prevSpace then collapseWsAux true cs
      else ' ' :: collapseWsAux true cs
    else c :: collapseWsAux false cs

/-- `re.sub(r'\s+', ' ', text)`: replace each maximal whitespace run by one
space. -/
def collapseWs (cs : List Char) : List Char := collapseWsAux false cs

/-- `' '.join(lines)`. -/
def joinSpace (ls : List (List Char)) : List Char := List.intercalate [' '] ls

/-- A parsed subtitle segment `(start, end, text)`; `end` is a Lean keyword,
so the field is called `stop`. -/
structure Segment where
  start : ℚ
  stop : ℚ
  text : List Char
  deriving DecidableEq

/-- Per-block processing of `parse_srt` extracted as a function: `none` for a
dropped block, `some` segment for a kept one.  A block with fewer than 2
lines is dropped; line index 1 must match the time pattern; the text is the
remaining lines joined by spaces, stripped, whitespace-collapsed, and must be
non-empty. -/
def parseBlock (lines : List (List Char)) : Option Segment :=
  match lines with
  | _ :: tl :: rest =>
    match matchSrtTimeLine tl with
    | some ((h1, m1, s1, ms1), (h2, m2, s2, ms2)) =>
      let text := collapseWs (pyStrip (joinSpace rest))
      if text = [] then none
      else some ⟨srtGroupsToSeconds h1 m1 s1 ms1, srtGroupsToSeconds h2 m2 s2 ms2, text⟩
    | none => none
  | _ => none

/-- `parse_srt` (lines 57-111), from the block list to the segment list,
mirroring the python loop with its three `continue`/guard paths inline. -/
def parse_srt : List (List (List Char)) → List Segment
  | [] => []
  | block :: bs =>
    match block with
    | _ :: tl :: rest =>
      match matchSrtTimeLine tl with
      | some ((h1, m1, s1, ms1), (h2, m2, s2, ms2)) =>
        let text := collapseWs (pyStrip (joinSpace rest))
        if text = [] then parse_srt bs
        else ⟨srtGroupsToSeconds h1 m1 s1 ms1, srtGroupsToSeconds h2 m2 s2 ms2, text⟩
          :: parse_srt bs
      | none => parse_srt bs
    | _ => parse_srt bs

/-! ## Round trip: format then parse (claim C6)

`generate_srt` writes the time line `f"{start_time} --> {end_time}"` with
`format_time`; `parse_srt` re-reads it with the anchored time pattern. -/

/-- The fixed separator `" --> "` written between the two timestamps. -/
def srtSepChars : List Char := [' ', '-', '-', '>', ' ']

/-- The characters of a generated SRT time line `A --> B`. -/
def srtTimeLineChars (a b : ℚ) : List Char :=
  (format_time a).data ++ srtSepChars ++ (format_time b).data

theorem pad2_eq : ∀ n : ℕ, n < 100 →
    padZeros 2 n = [Nat.digitChar (n / 10), Nat.digitChar (n % 10)] := by
  decide

theorem pad3_eq : ∀ n : ℕ, n < 1000 →
    padZeros 3 n =
      [Nat.digitChar (n / 100), Nat.digitChar (n / 10 % 10), Nat.digitChar (n % 10)] := by
  decide

theorem digit_isPyDigit : ∀ d : ℕ, d < 10 → isPyDigit (Nat.digitChar d) = true := by
  decide

theorem digit_val : ∀ d : ℕ, d < 10 → digitVal (Nat.digitChar d) = d := by
  decide

theorem digit_not_space : ∀ d : ℕ, d < 10 → isPySpace (Nat.digitChar d) = false := by
  decide

theorem readTwo_pad (n : ℕ) (hn : n < 100) (rest : List Char) :
    readFixedDigits 2 0 (padZeros 2 n ++ rest) = some (n, rest) := by
  rw [pad2_eq n hn]
  have h1 := digit_isPyDigit (n / 10) (by omega)
  have h2 := digit_isPyDigit (n % 10) (by omega)
  have v1 := digit_val (n / 10) (by omega)
  have v2 := digit_val (n % 10) (by omega)
  simp [readFixedDigits, h1, h2, v1, v2]
  omega

theorem readThree_pad (n : ℕ) (hn : n < 1000) (rest : List Char) :
    readFixedDigits 3 0 (padZeros 3 n ++ rest) = some (n, rest) := by
  rw [pad3_eq n hn]
  have h1 := digit_isPyDigit (n / 100) (by omega)
  have h2 := digit_isPyDigit (n / 10 % 10) (by omega)
  have h3 := digit_isPyDigit (n % 10) (by omega)
  have v1 := digit_val (n / 100) (by omega)
  have v2 := digit_val (n / 10 % 10) (by omega)
  have v3 := digit_val (n % 10) (by omega)
  simp [readFixedDigits, h1, h2, h3, v1, v2, v3]
  omega

theorem expectChar_cons_self (c : Char) (l : List Char) :
    expectChar c (c :: l) = some l := by
  simp [expectChar]

theorem matchTs_pad (h m s ms : ℕ) (hh : h < 100) (hm : m < 100) (hs : s < 100)
    (hms : ms < 1000) (rest : List Char) :
    matchSrtTimestamp (padZeros 2 h ++ ':' :: (padZeros 2 m ++ ':' ::
      (padZeros 2 s ++ ',' :: (padZeros 3 ms ++ rest)))) = some ((h, m, s, ms), rest) := by
  unfold matchSrtTimestamp
  simp only [readTwo_pad h hh, expectChar_cons_self, readTwo_pad m hm,
    readTwo_pad s hs, readThree_pad ms hms]

theorem matchTs_pad_nil (h m s ms : ℕ) (hh : h < 100) (hm : m < 100) (hs : s < 100)
    (hms : ms < 1000) :
    matchSrtTimestamp (padZeros 2 h ++ ':' :: (padZeros 2 m ++ ':' ::
      (padZeros 2 s ++ ',' :: padZeros 3 ms))) = some ((h, m, s, ms), []) := by
  have h0 := matchTs_pad h m s ms hh hm hs hms []
  simpa using h0

theorem dropWhile_space_space (l : List Char) :
    List.dropWhile isPySpace (' ' :: l) = List.dropWhile isPySpace l := by
  simp [List.dropWhile, isPySpace]

theorem dropWhile_space_dash (l : List Char) :
    List.dropWhile isPySpace ('-' :: l) = '-' :: l := by
  simp [List.dropWhile, isPySpace]

theorem dropWhile_space_digit (d : ℕ) (hd : d < 10) (l : List Char) :
    List.dropWhile isPySpace (Nat.digitChar d :: l) = Nat.digitChar d :: l := by
  have := digit_not_space d hd
  simp [List.dropWhile, this]

theorem dropWhile_space_pad2 (n : ℕ) (hn : n < 100) (l : List Char) :
    List.dropWhile isPySpace (padZeros 2 n ++ l) = padZeros 2 n ++ l := by
  rw [pad2_eq n hn]
  simp only [List.cons_append, List.nil_append]
  rw [dropWhile_space_digit (n / 10) (by omega)]

/-- Field recovery: the exchange formatter applied to the exact value of a
representable timestamp reproduces the four fields. -/
theorem format_time_fields_exact (h m s ms : ℕ) (hh : h ≤ 99) (hm : m ≤ 59)
    (hs : s ≤ 59) (hms : ms ≤ 999) :
    format_time_fields (srtGroupsToSeconds h m s ms) = ⟨(h : ℤ), (m : ℤ), (s : ℤ), (ms : ℤ)⟩ := by
  have hhq : ((h : ℕ) : ℚ) ≤ 99 := by exact_mod_cast hh
  have hmq : ((m : ℕ) : ℚ) ≤ 59 := by exact_mod_cast hm
  have hsq : ((s : ℕ) : ℚ) ≤ 59 := by exact_mod_cast hs
  have hmsq : ((ms : ℕ) : ℚ) ≤ 999 := by exact_mod_cast hms
  have hh0 : (0 : ℚ) ≤ ((h : ℕ) : ℚ) := by positivity
  have hm0 : (0 : ℚ) ≤ ((m : ℕ) : ℚ) := by positivity
  have hs0 : (0 : ℚ) ≤ ((s : ℕ) : ℚ) := by positivity
  have hms0 : (0 : ℚ) ≤ ((ms : ℕ) : ℚ) := by positivity
  have hA : ⌊srtGroupsToSeconds h m s ms / 3600⌋ = (h : ℤ) := by
    rw [Int.floor_eq_iff]
    unfold srtGroupsToSeconds
    constructor
    · rw [le_div_iff (by norm_num : (0:ℚ) < 3600)]
      push_cast
      linarith
    · rw [div_lt_iff (by norm_num : (0:ℚ) < 3600)]
      push_cast
      linarith
  have hr1 : pyFloorMod (srtGroupsToSeconds h m s ms) 3600
      = (m : ℚ) * 60 + (s : ℚ) + (ms : ℚ) / 1000 := by
    unfold pyFloorMod
    rw [hA]
    unfold srtGroupsToSeconds
    push_cast
    ring
  have hB : ⌊pyFloorMod (srtGroupsToSeconds h m s ms) 3600 / 60⌋ = (m : ℤ) := by
    rw [hr1, Int.floor_eq_iff]
    constructor
    · rw [le_div_iff (by norm_num : (0:ℚ) < 60)]
      push_cast
      linarith
    · rw [div_lt_iff (by norm_num : (0:ℚ) < 60)]
      push_cast
      linarith
  have ht60 : ⌊srtGroupsToSeconds h m s ms / 60⌋ = 60 * (h : ℤ) + (m : ℤ) := by
    rw [Int.floor_eq_iff]
    unfold srtGroupsToSeconds
    constructor
    · rw [le_div_iff (by norm_num : (0:ℚ) < 60)]
      push_cast
      linarith
    · rw [div_lt_iff (by norm_num : (0:ℚ) < 60)]
      push_cast
      linarith
  have hr2 : pyFloorMod (srtGroupsToSeconds h m s ms) 60 = (s : ℚ) + (ms : ℚ) / 1000 := by
    unfold pyFloorMod
    rw [ht60]
    unfold srtGroupsToSeconds
    push_cast
    ring
  have hC : ⌊pyFloorMod (srtGroupsToSeconds h m s ms) 60⌋ = (s : ℤ) := by
    rw [hr2, Int.floor_eq_iff]
    constructor
    · push_cast
      linarith
    · push_cast
      linarith
  have hfl : ⌊srtGroupsToSeconds h m s ms⌋ = 3600 * (h : ℤ) + 60 * (m : ℤ) + (s : ℤ) := by
    rw [Int.floor_eq_iff]
    unfold srtGroupsToSeconds
    constructor
    · push_cast
      linarith
    · push_cast
      linarith
  have hD : ⌊(srtGroupsToSeconds h m s ms - ((⌊srtGroupsToSeconds h m s ms⌋ : ℤ) : ℚ)) * 1000⌋
      = (ms : ℤ) := by
    rw [hfl]
    have hexact : (srtGroupsToSeconds h m s ms - ((3600 * (h : ℤ) + 60 * (m : ℤ) + (s : ℤ) : ℤ) : ℚ))
        * 1000 = ((ms : ℕ) : ℚ) := by
      unfold srtGroupsToSeconds
      push_cast
      ring
    rw [hexact, Int.floor_natCast]
  simp only [format_time_fields, TimeFields.mk.injEq]
  exact ⟨hA, hB, hC, hD⟩

/-- The characters written by `format_time` at an exactly representable
timestamp, in parseable padded form. -/
theorem format_time_data (h m s ms : ℕ) (hh : h ≤ 99) (hm : m ≤ 59)
    (hs : s ≤ 59) (hms : ms ≤ 999) :
    (format_time (srtGroupsToSeconds h m s ms)).data =
      padZeros 2 h ++ ':' :: (padZeros 2 m ++ ':' :: (padZeros 2 s ++ ',' ::
        padZeros 3 ms)) := by
  simp only [format_time]
  rw [format_time_fields_exact h m s ms hh hm hs hms]
  simp [Int.toNat_natCast]

/-- Claim C6: formatting an exactly representable exchange timestamp with
`format_time` and parsing the resulting time line back with `parse_srt`
recovers the timestamp exactly (in particular within 1 ms). -/
theorem srt_roundtrip (h m s ms : ℕ) (hh : h ≤ 99) (hm : m ≤ 59)
    (hs : s ≤ 59) (hms : ms ≤ 999) :
    parse_srt [[['1'],
        srtTimeLineChars (srtGroupsToSeconds h m s ms) (srtGroupsToSeconds h m s ms),
        ['x']]] =
      [⟨srtGroupsToSeconds h m s ms, srtGroupsToSeconds h m s ms, ['x']⟩] := by
  have hdata := format_time_data h m s ms hh hm hs hms
  have hline : matchSrtTimeLine
      (srtTimeLineChars (srtGroupsToSeconds h m s ms) (srtGroupsToSeconds h m s ms))
      = some ((h, m, s, ms), (h, m, s, ms)) := by
    unfold srtTimeLineChars srtSepChars
    rw [hdata]
    simp only [List.append_assoc, List.cons_append, List.append_nil, List.nil_append]
    unfold matchSrtTimeLine
    simp only [matchTs_pad h m s ms (by omega) (by omega) (by omega) (by omega),
      matchTs_pad_nil h m s ms (by omega) (by omega) (by omega) (by omega),
      dropWhile_space_space, dropWhile_space_dash,
      dropWhile_space_pad2 h (by omega), expectChar_cons_self]
  have htext : collapseWs (pyStrip (joinSpace [['x']])) = ['x'] := by decide
  simp only [parse_srt, hline, htext]
  norm_num

/-- Claim C6 witness instance: the timestamp `00:00:07,519` survives the
format-parse round trip exactly. -/
theorem srt_roundtrip_witness :
    parse_srt [[['1'],
        srtTimeLineChars (srtGroupsToSeconds 0 0 7 519) (srtGroupsToSeconds 0 0 7 519),
        ['x']]] =
      [⟨srtGroupsToSeconds 0 0 7 519, srtGroupsToSeconds 0 0 7 519, ['x']⟩] :=
  srt_roundtrip 0 0 7 519 (by norm_num) (by norm_num) (by norm_num) (by norm_num)

/-! ## Claims about the parser -/

/-- Claim C7: `parse_srt` is exactly the per-block partial parse mapped over
the block list — each malformed block (fewer than 2 lines, non-matching time
line, or empty joined whitespace-collapsed text) is silently dropped, every
other block yields its segment, and segments come in source order.  The
function is total on every block list (no abort on structural malformation;
the only hard error in the source, a missing file, happens before parsing). -/
theorem parse_srt_drops_malformed :
    (∀ bs, parse_srt bs = bs.filterMap parseBlock) ∧
    (∀ b, b.length < 2 → parseBlock b = none) ∧
    (∀ l0 tl rest, matchSrtTimeLine tl = none → parseBlock (l0 :: tl :: rest) = none) ∧
    (∀ l0 tl rest, collapseWs (pyStrip (joinSpace rest)) = [] →
      parseBlock (l0 :: tl :: rest) = none) ∧
    (∀ l0 tl rest t1 t2, matchSrtTimeLine tl = some (t1, t2) →
      collapseWs (pyStrip (joinSpace rest)) ≠ [] →
      parseBlock (l0 :: tl :: rest) =
        some ⟨srtGroupsToSeconds t1.1 t1.2.1 t1.2.2.1 t1.2.2.2,
              srtGroupsToSeconds t2.1 t2.2.1 t2.2.2.1 t2.2.2.2,
              collapseWs (pyStrip (joinSpace rest))⟩) := by
  refine ⟨?_, ?_, ?_, ?_, ?_⟩
  · intro bs
    induction bs with
    | nil => rfl
    | cons b bs ih =>
      cases b with
      | nil => simpa [parse_srt, parseBlock] using ih
      | cons l0 t =>
        cases t with
        | nil => simpa [parse_srt, parseBlock] using ih
        | cons tl rest =>
          simp only [parse_srt, parseBlock, List.filterMap_cons]
          cases hm : matchSrtTimeLine tl with
          | none => simpa using ih
          | some t =>
            obtain ⟨⟨h1, m1, s1, ms1⟩, h2, m2, s2, ms2⟩ := t
            by_cases ht : collapseWs (pyStrip (joinSpace rest)) = [] <;>
              simp [ht, ih]
  · intro b hb
    match b with
    | [] => rfl
    | [l] => rfl
    | l0 :: tl :: rest => simp at hb; omega
  · intro l0 tl rest hm
    simp [parseBlock, hm]
  · intro l0 tl rest ht
    cases hm : matchSrtTimeLine tl with
    | none => simp [parseBlock, hm]
    | some t =>
      obtain ⟨⟨h1, m1, s1, ms1⟩, h2, m2, s2, ms2⟩ := t
      simp [parseBlock, hm, ht]
  · intro l0 tl rest t1 t2 hm ht
    obtain ⟨h1, m1, s1, ms1⟩ := t1
    obtain ⟨h2, m2, s2, ms2⟩ := t2
    simp [parseBlock, hm, ht]

/-- Claim C7 witness instance: a one-line block is dropped, and a well-formed
block is kept, by `parse_srt_drops_malformed`. -/
theorem parse_srt_drops_malformed_witness :
    parseBlock [['1']] = none ∧
    parseBlock [['1'], "00:00:00,000 --> 00:00:07,519".data, ['h', 'i']] =
      some ⟨srtGroupsToSeconds 0 0 0 0, srtGroupsToSeconds 0 0 7 519, ['h', 'i']⟩ :=
  ⟨parse_srt_drops_malformed.2.1 [['1']] (by decide),
   parse_srt_drops_malformed.2.2.2.2 ['1'] "00:00:00,000 --> 00:00:07,519".data
     [['h', 'i']] (0, 0, 0, 0) (0, 0, 7, 519) (by decide) (by decide)⟩

theorem parse_srt_example_eval :
    parse_srt [[['1'], "00:00:05,000 --> 00:00:01,000".data, ['h', 'i']]] =
      [⟨5, 1, ['h', 'i']⟩] := by
  have hm : matchSrtTimeLine ("00:00:05,000 --> 00:00:01,000".data) =
      some ((0, 0, 5, 0), (0, 0, 1, 0)) := by decide
  have ht : collapseWs (pyStrip (joinSpace [['h', 'i']])) = ['h', 'i'] := by decide
  simp only [parse_srt, hm, ht]
  norm_num [srtGroupsToSeconds]
  simp

/-- Claim C8, counterexample: a syntactically well-formed block whose end
timestamp precedes its start timestamp is parsed into a Segment with
`end < start` — the parser never checks the claimed invariant `end > start`. -/
theorem parse_srt_end_not_after_start :
    parse_srt [[['1'], "00:00:05,000 --> 00:00:01,000".data, ['h', 'i']]] =
      [⟨5, 1, ['h', 'i']⟩] ∧
    ¬ (∀ seg ∈ parse_srt [[['1'], "00:00:05,000 --> 00:00:01,000".data, ['h', 'i']]],
        seg.start < seg.stop) := by
  refine ⟨parse_srt_example_eval, ?_⟩
  intro h
  have h5 := h ⟨5, 1, ['h', 'i']⟩
    (by rw [parse_srt_example_eval]; exact List.mem_singleton_self _)
  norm_num at h5

/-- Claim C8 (amended): every Segment produced by `parse_srt` has
non-negative start and end times and non-empty text (the rest of the
data-model invariant); `end > start` is not enforced by the parser. -/
theorem parse_srt_segment_bounds (bs : List (List (List Char))) (seg : Segment)
    (h : seg ∈ parse_srt bs) :
    0 ≤ seg.start ∧ 0 ≤ seg.stop ∧ seg.text ≠ [] := by
  induction bs with
  | nil => simp [parse_srt] at h
  | cons b bs ih =>
    cases b with
    | nil => exact ih (by simpa [parse_srt] using h)
    | cons l0 t =>
      cases t with
      | nil => exact ih (by simpa [parse_srt] using h)
      | cons tl rest =>
        revert h
        simp only [parse_srt]
        cases hm : matchSrtTimeLine tl with
        | none => exact ih
        | some t =>
          obtain ⟨⟨h1, m1, s1, ms1⟩, h2, m2, s2, ms2⟩ := t
          by_cases ht : collapseWs (pyStrip (joinSpace rest)) = []
          · simp only [ht, if_pos rfl]
            exact ih
          · simp only [if_neg ht, List.mem_cons]
            intro h
            rcases h with h | h
            · subst h
              refine ⟨?_, ?_, ht⟩ <;>
                · simp only [srtGroupsToSeconds]
                  positivity
            · exact ih h

/-- Claim C8 witness instance: the invariant holds for the concrete segment
parsed in `parse_srt_end_not_after_start`. -/
theorem parse_srt_segment_bounds_witness :
    0 ≤ (⟨5, 1, ['h', 'i']⟩ : Segment).start ∧
    0 ≤ (⟨5, 1, ['h', 'i']⟩ : Segment).stop ∧
    (⟨5, 1, ['h', 'i']⟩ : Segment).text ≠ [] :=
  parse_srt_segment_bounds
    [[['1'], "00:00:05,000 --> 00:00:01,000".data, ['h', 'i']]]
    ⟨5, 1, ['h', 'i']⟩
    (by rw [parse_srt_example_eval]; exact List.mem_singleton_self _)

end AiVideoCut
